import Mathlib

/-!
# Verification of the kAirPods service core

A shallow embedding of the kAirPods service (`src/service/src`) in Lean 4,
with theorems settling the specification claims about the protocol codec,
the device state updates, the battery tracker, the L2CAP hook layer, the
manager actor and the battery study store.

Bytes are modelled as `Fin 256`, byte slices as `List Byte`, fallible Rust
functions returning `Result<T, E>` as `Except E T`, and `Option<T>` as
`Option T`.
-/

namespace KAirPods

abbrev Byte := Fin 256

/-! ## Protocol data model (`airpods/protocol.rs`) -/

/-- `Component` enum from `protocol.rs`: `Right = 0x02, Left = 0x04, Case = 0x08`. -/
inductive Component where
  | Right
  | Left
  | Case
deriving DecidableEq, Repr

/-- `strum::FromRepr` for `Component` (`#[repr(u8)]` discriminants). -/
def Component.from_repr (b : Byte) : Option Component :=
  if b.val = 0x02 then some .Right
  else if b.val = 0x04 then some .Left
  else if b.val = 0x08 then some .Case
  else none

/-- `BatteryStatus` enum from `protocol.rs`:
`Normal = 0x00, Charging = 0x01, Discharging = 0x02, Disconnected = 0x04`. -/
inductive BatteryStatus where
  | Normal
  | Charging
  | Discharging
  | Disconnected
deriving DecidableEq, Repr, BEq

/-- `strum::FromRepr` for `BatteryStatus`. -/
def BatteryStatus.from_repr (b : Byte) : Option BatteryStatus :=
  if b.val = 0x00 then some .Normal
  else if b.val = 0x01 then some .Charging
  else if b.val = 0x02 then some .Discharging
  else if b.val = 0x04 then some .Disconnected
  else none

/-- `BatteryState` struct from `protocol.rs`. -/
structure BatteryState where
  level : Byte
  status : BatteryStatus
deriving DecidableEq, Repr

/-- `BatteryState::new()`: `level: 0, status: Disconnected`. -/
def BatteryState.new : BatteryState := { level := 0, status := .Disconnected }

/-- `BatteryState::is_charging`. -/
def BatteryState.is_charging (s : BatteryState) : Bool :=
  s.status == BatteryStatus.Charging

/-- `BatteryState::is_available`. -/
def BatteryState.is_available (s : BatteryState) : Bool :=
  s.status != BatteryStatus.Disconnected

/-- `BatteryInfo` struct from `protocol.rs` (fields `left`, `right`, `case`;
the last renamed `case_` because `case` is a Lean keyword). -/
structure BatteryInfo where
  left : BatteryState
  right : BatteryState
  case_ : BatteryState
deriving DecidableEq, Repr

/-- `BatteryInfo::new()`. -/
def BatteryInfo.new : BatteryInfo :=
  { left := BatteryState.new, right := BatteryState.new, case_ := BatteryState.new }

/-- Header `HDR_BATTERY_STATE = 04 00 04 00 04 00`. -/
def HDR_BATTERY_STATE : List Byte := [0x04, 0x00, 0x04, 0x00, 0x04, 0x00]

/-- Header `HDR_CMD_CTL = 04 00 04 00 09 00`. -/
def HDR_CMD_CTL : List Byte := [0x04, 0x00, 0x04, 0x00, 0x09, 0x00]

/-! ## Parser errors (`airpods/parser.rs`) -/

/-- `ProtoError` enum from `parser.rs`. -/
inductive ProtoError where
  | WrongPacketType (expected : String)
  | PacketTooShort (expected actual : Nat)
  | InvalidBatteryCount (count : Byte)
  | PacketSizeMismatch (expected actual : Nat)
  | UnknownComponentType (component_type : Byte)
  | UnknownNoiseMode (mode : Nat)
  | InvalidFormat (reason : String)
deriving DecidableEq, Repr

/-! ## Battery status parser (`parse_battery_status` in `parser.rs`) -/

/-- One iteration of the record loop in `parse_battery_status`
(`for i in 0..battery_count`), acting on the accumulated `BatteryInfo`.
Mirrors the bounds check (`offset + 4 >= data.len()` → `continue`), the
`Component::from_repr` skip, the `BatteryStatus::from_repr(..).unwrap_or(Normal)`
degrade, and the write guarded by `bat_status != Disconnected`. The Rust
locals `offset = 7 + 5*i`, `id = data[offset]`, `level = data[offset+2]`,
`status = data[offset+3]` and `bat_status` are inlined; the pad bytes
`data[offset+1]` and `data[offset+4]` are only read for debug logging. -/
def parse_battery_record (data : List Byte) (info : BatteryInfo) (i : Nat) : BatteryInfo :=
  if data.length ≤ (7 + 5 * i) + 4 then info
  else
    match Component.from_repr (data.getD (7 + 5 * i) 0) with
    | none => info
    | some component =>
      if (BatteryStatus.from_repr (data.getD ((7 + 5 * i) + 3) 0)).getD .Normal
          ≠ .Disconnected then
        match component with
        | .Left => { info with left :=
            { level := data.getD ((7 + 5 * i) + 2) 0,
              status := (BatteryStatus.from_repr (data.getD ((7 + 5 * i) + 3) 0)).getD .Normal } }
        | .Right => { info with right :=
            { level := data.getD ((7 + 5 * i) + 2) 0,
              status := (BatteryStatus.from_repr (data.getD ((7 + 5 * i) + 3) 0)).getD .Normal } }
        | .Case => { info with case_ :=
            { level := data.getD ((7 + 5 * i) + 2) 0,
              status := (BatteryStatus.from_repr (data.getD ((7 + 5 * i) + 3) 0)).getD .Normal } }
      else info

/-- `parse_battery_status` from `parser.rs`: header check, minimum-length
check, count-range check, exact-size check, then the record loop starting
from `BatteryInfo::new()`. -/
def parse_battery_status (data : List Byte) : Except ProtoError BatteryInfo :=
  if ¬ (HDR_BATTERY_STATE.isPrefixOf data) then
    .error (.WrongPacketType "battery status")
  else if data.length < 7 then
    .error (.PacketTooShort 7 data.length)
  else if 3 < (data.getD 6 0).val then
    .error (.InvalidBatteryCount (data.getD 6 0))
  else if data.length ≠ 7 + 5 * (data.getD 6 0).val then
    .error (.PacketSizeMismatch (7 + 5 * (data.getD 6 0).val) data.length)
  else
    .ok ((List.range (data.getD 6 0).val).foldl (parse_battery_record data) BatteryInfo.new)

/-! ## Control packets and feature commands (`protocol.rs`) -/

/-- `build_control_packet(cmd, data)`: `HDR_CMD_CTL ++ [cmd] ++ data`. -/
def build_control_packet (cmd : Byte) (data : List Byte) : List Byte :=
  HDR_CMD_CTL ++ [cmd] ++ data

/-- `FeatureCmd` enum: `Query = 0, Enable = 1, Disable = 2`. -/
inductive FeatureCmd where
  | Query
  | Enable
  | Disable
deriving DecidableEq, Repr

/-- `u32::from_le_bytes` on exactly four bytes. -/
def u32_from_le_bytes (b0 b1 b2 b3 : Byte) : Nat :=
  b0.val + 256 * b1.val + 65536 * b2.val + 16777216 * b3.val

/-- `FeatureCmd::parse`: strip the `HDR_CMD_CTL` header, split off the
feature byte, require exactly four remaining bytes (the `try_into`),
decode them as a little-endian `u32` and map `0/1/2` to
`Query/Enable/Disable`, anything else to `None`. The feature id is
returned as the raw opcode byte (`FeatureId` is a transparent `u8`). -/
def FeatureCmd.parse (data : List Byte) : Option (Byte × FeatureCmd) :=
  if HDR_CMD_CTL.isPrefixOf data then
    match data.drop HDR_CMD_CTL.length with
    | [] => none
    | feature :: rest =>
      match rest with
      | [b0, b1, b2, b3] =>
        match u32_from_le_bytes b0 b1 b2 b3 with
        | 0 => some (feature, .Query)
        | 1 => some (feature, .Enable)
        | 2 => some (feature, .Disable)
        | _ => none
      | _ => none
  else none

/-! ## Device state updates (`airpods/device.rs`) -/

/-- `UpdateOp` enum from `device.rs`. -/
inductive UpdateOp (T : Type) where
  | Noop
  | Inserted
  | Deleted (prev : T)
  | Updated (new : T)
deriving DecidableEq, Repr

/-- `UpdateOp::new(prev, new)` from `device.rs`. -/
def UpdateOp.new {T : Type} [DecidableEq T] (prev new : Option T) : UpdateOp T :=
  match prev, new with
  | some p, some n => if p = n then .Noop else .Updated n
  | none, some _ => .Inserted
  | some p, none => .Deleted p
  | none, none => .Noop

/-- `UpdateOp::is_updated`. -/
def UpdateOp.is_updated {T : Type} : UpdateOp T → Bool
  | .Inserted => true
  | .Updated _ => true
  | _ => false

/-- `UpdateOp::apply_atomic(dst, new)` from `device.rs`: the atomic cell swap.
Returns the op (computed from the previous and the new value) together with
the cell's new contents, which are always `new`. -/
def UpdateOp.apply_atomic {T : Type} [DecidableEq T] (dst new : Option T) :
    UpdateOp T × Option T :=
  (UpdateOp.new dst new, new)

/-- `AirPods::update_battery_info`: `UpdateOp::apply_atomic` on the battery cell. -/
def update_battery_info (stored : Option BatteryInfo) (battery : Option BatteryInfo) :
    UpdateOp BatteryInfo × Option BatteryInfo :=
  UpdateOp.apply_atomic stored battery

/-- The battery branch of `AirPods::process_packet`: parse the packet; on
success swap the parsed `BatteryInfo` into the device's battery cell and
emit a `BatteryUpdated` event iff the op is `Inserted`/`Updated`; on a parse
error the packet is logged and dropped, leaving the stored state unchanged.
Returns `(new stored battery, emitted event payload)`. -/
def process_battery_packet (stored : Option BatteryInfo) (data : List Byte) :
    Option BatteryInfo × Option BatteryInfo :=
  match parse_battery_status data with
  | .ok battery =>
    let r := update_battery_info stored (some battery)
    (r.2, if r.1.is_updated then some battery else none)
  | .error _ => (stored, none)

/-! ## Battery TTL estimation guards

`AirPods::estimate_battery_ttl` (`device.rs`) and
`BatteryTracker::estimate_ttl` (`battery_study.rs`) both begin with the same
guard sequence: return `None` (clearing any cached estimate) when either bud
is charging, and again when either bud is unavailable (disconnected). The
arithmetic tail that follows the guards (drain-rate regression, rate
combination and exponential smoothing, all on `f64`) is abstracted as an
explicit continuation `rest`, mapping the previous cached estimate to the
pair `(returned estimate, new cached estimate)`; the guard claims proved
below hold for every such continuation. Each function returns
`(result, new value of last_ttl_estimate)`. -/

/-- Guard structure of `AirPods::estimate_battery_ttl` (`device.rs`).
`battery` is the contents of the battery cell (`self.battery_info()?`
returns early on `None` without touching the cache). -/
def estimate_battery_ttl_guarded (rest : Option Nat → Option Nat × Option Nat)
    (battery : Option BatteryInfo) (prev_estimate : Option Nat) :
    Option Nat × Option Nat :=
  match battery with
  | none => (none, prev_estimate)
  | some battery =>
    if battery.left.is_charging || battery.right.is_charging then
      (none, if prev_estimate.isSome then none else prev_estimate)
    else if !battery.left.is_available || !battery.right.is_available then
      (none, if prev_estimate.isSome then none else prev_estimate)
    else rest prev_estimate

/-- Guard structure of `BatteryTracker::estimate_ttl` (`battery_study.rs`).
The `noise_mode` argument is only consumed by the historical-rate lookup
inside the abstracted tail, never by the guards. -/
def estimate_ttl_guarded (rest : Option Nat → Option Nat × Option Nat)
    (battery_info : BatteryInfo) (noise_mode : Option Nat)
    (prev_estimate : Option Nat) : Option Nat × Option Nat :=
  let left := battery_info.left
  let right := battery_info.right
  let _ := noise_mode
  if left.is_charging || right.is_charging then
    (none, if prev_estimate.isSome then none else prev_estimate)
  else if !left.is_available || !right.is_available then
    (none, if prev_estimate.isSome then none else prev_estimate)
  else rest prev_estimate

/-! ## Battery history ring buffer (`device.rs`)

`BatteryHistory` stores parallel arrays `timestamps: [u32; 32]` and
`levels: [u8; 32]`, a write index `head` and a saturating `count`.
Timestamps are milliseconds since `base_time`; `base_time` itself is an
`Instant` and is not needed for the claims, so timestamps are modelled
directly as the stored `u32` offsets. -/

/-- `BATTERY_HISTORY_SIZE` from `device.rs`. -/
def BATTERY_HISTORY_SIZE : Nat := 32

/-- The fixed arrays `timestamps: [u32; 32]` and `levels: [u8; 32]` are
modelled as functions on `Nat`; every index the code computes is reduced
modulo 32 (`head` is kept below 32 by construction), so only the first 32
entries are ever read or written. -/
structure BatteryHistory where
  timestamps : Nat → Nat
  levels : Nat → Byte
  head : Nat
  count : Nat

/-- `BatteryHistory::default()`: zeroed arrays, `head = 0`, `count = 0`. -/
def BatteryHistory.init : BatteryHistory :=
  { timestamps := fun _ => 0, levels := fun _ => 0, head := 0, count := 0 }

/-- `BatteryHistory::push`: write at `head`, advance `head` modulo 32,
saturate `count` at 32. -/
def BatteryHistory.push (h : BatteryHistory) (timestamp : Nat) (level : Byte) :
    BatteryHistory :=
  { timestamps := Function.update h.timestamps h.head timestamp,
    levels := Function.update h.levels h.head level,
    head := (h.head + 1) % 32,
    count := min (h.count + 1) 32 }

/-- The start index used by `BatteryHistory::iter`: `0` while the ring has
not wrapped, `head` (the oldest entry) once it has. -/
def BatteryHistory.start (h : BatteryHistory) : Nat :=
  if h.count < 32 then 0 else h.head

/-- `BatteryHistory::iter`, oldest entry first. -/
def BatteryHistory.iterList (h : BatteryHistory) : List (Nat × Byte) :=
  (List.range h.count).map fun i =>
    (h.timestamps ((h.start + i) % 32), h.levels ((h.start + i) % 32))

/-- The levels yielded by `BatteryHistory::iter`, oldest first. -/
def BatteryHistory.levelsList (h : BatteryHistory) : List Byte :=
  h.iterList.map Prod.snd

/-- `BatteryHistory::last_level`. -/
def BatteryHistory.last_level (h : BatteryHistory) : Option Byte :=
  if h.count = 0 then none
  else some (h.levels (if h.head = 0 then 31 else h.head - 1))

/-- `BatteryHistory::clear`: zero the arrays and reset `head` and `count`
(the `base_time` reset is not observable in this model). -/
def BatteryHistory.clear (_h : BatteryHistory) : BatteryHistory :=
  BatteryHistory.init

/-- `BatteryHistory::record_battery_drop` from `device.rs`: push only when
the level strictly dropped below the last stored level, or when the history
is empty. -/
def BatteryHistory.record_battery_drop (h : BatteryHistory) (level : Byte)
    (timestamp : Nat) : BatteryHistory :=
  match h.last_level with
  | some last_level => if level < last_level then h.push timestamp level else h
  | none => h.push timestamp level

/-- Histories reachable through the public mutation paths of
`AirPods::record_battery_drop`: start from `Default::default()`, then any
interleaving of `record_battery_drop` (non-charging samples) and `clear`
(charging transitions). -/
inductive BatteryHistory.Reachable : BatteryHistory → Prop where
  | init : BatteryHistory.Reachable BatteryHistory.init
  | record {h} (level : Byte) (timestamp : Nat) :
      BatteryHistory.Reachable h →
      BatteryHistory.Reachable (h.record_battery_drop level timestamp)
  | clearStep {h} : BatteryHistory.Reachable h →
      BatteryHistory.Reachable h.clear

/-! ## L2CAP hooks (`bluetooth/l2cap.rs`)

A `Hook` stores a byte prefix (`pfx`), a boxed `FnMut` callback and a
`disposition`. Callbacks are opaque side-effecting closures; the model gives
every hook an identity `hid` so that outer-callback invocations can be
observed, and models the `Hook::once` wrapper's `Option::take` state
explicitly: a `once` callback holds `some cbId` until its first invocation,
which fires the captured callback `cbId` and leaves `none`. -/

inductive HookDisposition where
  | Discard
  | Retain
deriving DecidableEq, Repr

/-- Callback state of a hook: a plain `FnMut` closure, or the
`Hook::once` wrapper around a captured `FnOnce` closure. -/
inductive Cb where
  | plain (id : Nat)
  | once (captured : Option Nat)
deriving DecidableEq, Repr

/-- Invoking the callback: for a `once` wrapper, `Option::take` the captured
closure and fire it (reported as `some id`); a second invocation is a no-op.
A plain closure never reports a captured-closure firing. -/
def Cb.invoke : Cb → Option Nat × Cb
  | .plain i => (none, .plain i)
  | .once (some i) => (some i, .once none)
  | .once none => (none, .once none)

structure Hook where
  hid : Nat
  pfx : List Byte
  cb : Cb
  disposition : HookDisposition
deriving DecidableEq, Repr

/-- `Hook::once(cb)`: empty prefix, `Discard` disposition, captured callback.
The model reuses the captured callback's id as the hook identity. -/
def Hook.once (i : Nat) : Hook :=
  { hid := i, pfx := [], cb := .once (some i), disposition := .Discard }

/-- `Hook::prefix(pfx)` builder. -/
def Hook.with_pfx (h : Hook) (pfx : List Byte) : Hook :=
  { h with pfx := pfx }

/-- `Hook::passthrough(bytes)`: when `bytes` starts with `pfx`, invoke the
callback and return the hook's disposition; otherwise `Retain` without
invoking. Returns `((outer invocation, captured firing), updated hook,
disposition)`. -/
def Hook.passthroughStep (h : Hook) (bytes : List Byte) :
    (Option Nat × Option Nat) × Hook × HookDisposition :=
  if h.pfx.isPrefixOf bytes then
    let r := h.cb.invoke
    ((some h.hid, r.1), { h with cb := r.2 }, h.disposition)
  else ((none, none), h, .Retain)

/-- `Hooks::passthrough(bytes)`: `retain_mut` over the hook list — each hook
is processed in insertion order and kept iff its `passthrough` returned
`Retain`. Returns `((outer invocations in order, captured firings in order),
remaining hooks)`. -/
def Hooks.passthrough : List Hook → List Byte → (List Nat × List Nat) × List Hook
  | [], _ => (([], []), [])
  | h :: hs, bytes =>
    let step := h.passthroughStep bytes
    let rest := Hooks.passthrough hs bytes
    ((step.1.1.toList ++ rest.1.1, step.1.2.toList ++ rest.1.2),
      match step.2.2 with
      | .Retain => step.2.1 :: rest.2
      | .Discard => rest.2)

/-- The receive loop of `recv_thread`: feed each inbound packet through
`Hooks::passthrough`, threading the hook list. Returns the concatenated
captured-callback firings and the final hook list. -/
def Hooks.runPackets (hooks : List Hook) : List (List Byte) → List Nat × List Hook
  | [] => ([], hooks)
  | p :: ps =>
    let r := Hooks.passthrough hooks p
    let rest := Hooks.runPackets r.2 ps
    (r.1.2 ++ rest.1, rest.2)

/-- How many times the callback state could still fire captured closure `i`. -/
def Cb.capacityFor (i : Nat) : Cb → Nat
  | .once (some j) => if j = i then 1 else 0
  | _ => 0

/-- Total remaining capacity of a hook list to fire captured closure `i`. -/
def hooksCapacity (hooks : List Hook) (i : Nat) : Nat :=
  (hooks.map fun h => h.cb.capacityFor i).sum

/-! ## Manager actor (`bluetooth/manager.rs`) -/

abbrev Address := Nat

inductive BluetoothState where
  | Connected
  | Disconnected
deriving DecidableEq, Repr

inductive AAPState where
  | Disconnected
  | Connecting
  | Connected
  | Failed (reason : String)
  | WaitingToReconnect
deriving DecidableEq, Repr

inductive AdapterState where
  | Active
  | Lost
  | Failed (msg : String)
deriving DecidableEq, Repr

structure ManagedDevice where
  bluetooth_state : BluetoothState
  aap_state : AAPState
  adapter_name : String
  aap_retry_count : Nat
  last_aap_error : Option String
  aap_handle : Bool
deriving DecidableEq, Repr

/-- The manager actor's mutable inventory (`ManagerActor` fields touched by
`establish_aap_connection`). Maps are association lists keyed by address or
adapter name. -/
structure ManagerState where
  adapters : List (String × AdapterState)
  devices : List (Address × ManagedDevice)
  aap_connecting : List Address
deriving DecidableEq, Repr

/-- The `AirPodsError` variants reachable from `establish_aap_connection`. -/
inductive AirPodsError where
  | DeviceNotFound (addr : Address)
  | DeviceNotConnected
  | DeviceNotPaired
  | AlreadyConnecting
  | AdapterNotFound
  | AdapterNotAvailable
deriving DecidableEq, Repr

/-- Replace the entry for `addr` in the device map. -/
def putDevice (devices : List (Address × ManagedDevice)) (addr : Address)
    (d : ManagedDevice) : List (Address × ManagedDevice) :=
  devices.map fun e => if e.1 = addr then (e.1, d) else e

/-- `ManagerActor::establish_aap_connection`. `paired` is the host stack's
pairing oracle (`bluer_device.is_paired().await.unwrap_or(false)`; the
infallible-in-practice `adapter.device(addr)` handle construction is treated
as succeeding). Returns `(result, new state, whether a connection task was
spawned)`. -/
def establish_aap_connection (paired : Address → Bool) (st : ManagerState)
    (addr : Address) : Except AirPodsError Unit × ManagerState × Bool :=
  if addr ∈ st.aap_connecting then
    (.error .AlreadyConnecting, st, false)
  else
    match st.devices.lookup addr with
    | none => (.error (.DeviceNotFound addr), st, false)
    | some device =>
      match st.adapters.lookup device.adapter_name with
      | none => (.error .AdapterNotFound, st, false)
      | some adapter_state =>
        if adapter_state ≠ .Active then
          (.error .AdapterNotAvailable, st, false)
        else if device.bluetooth_state ≠ .Connected then
          (.error .DeviceNotConnected, st, false)
        else if ¬ paired addr then
          (.error .DeviceNotPaired,
            { st with aap_connecting := st.aap_connecting.erase addr }, false)
        else
          let device' := { device with aap_handle := true, aap_state := .Connecting }
          (.ok (),
            { st with
                devices := putDevice st.devices addr device',
                aap_connecting := addr :: st.aap_connecting },
            true)

/-- `MAX_AAP_RETRY_DELAY` in milliseconds. -/
def MAX_AAP_RETRY_DELAY_MS : Nat := 120000

/-- `calc_retry_delay` from `manager.rs`, in milliseconds. The drawn jitter
`rand::thread_rng().gen_range(0..1000)` is passed in as a parameter
(a uniform value in `0..=999` ms). -/
def calc_retry_delay (retry_count : Nat) (jitter : Nat) : Nat :=
  let base_delay := 2000
  let exponential := base_delay * 2 ^ (min retry_count 4)
  let delay := min exponential MAX_AAP_RETRY_DELAY_MS
  delay + jitter

/-! ## Battery study store (`battery_study.rs`)

The LMDB database `Address → DeviceStudy` is modelled as an association
list; each operation is the pure effect of its single committed transaction
(the error-free path — LMDB errors abort without effect). The per-mode
drain-rate table holds `f64` statistics never touched by the session
operations modelled here, so its contents are kept opaque. -/

/-- Opaque contents of the `drain_rates: NoiseControlMap<DrainRateStats>`
field, untouched by `increment_session_count` / `get_or_create_study`. -/
abbrev DrainRates := List Nat

structure DeviceStudy where
  device_name : String
  last_updated : Nat
  total_sessions : Nat
  total_samples : Nat
  drain_rates : DrainRates
deriving DecidableEq, Repr

abbrev StudyDb := List (Address × DeviceStudy)

/-- Upsert into the study database. -/
def StudyDb.put (db : StudyDb) (addr : Address) (s : DeviceStudy) : StudyDb :=
  if (db.lookup addr).isSome then
    db.map fun e => if e.1 = addr then (e.1, s) else e
  else
    (addr, s) :: db

/-- `BatteryStudy::increment_session_count`: read-modify-write on the
session counter when a record exists; when the address has no record the
`if let Some` does not match and the function returns `Ok(())` without
writing. `now` is `unix_now()`; the `u32` counter wraps. -/
def increment_session_count (db : StudyDb) (addr : Address) (now : Nat) :
    Except Unit Unit × StudyDb :=
  match db.lookup addr with
  | some study =>
    let study' := { study with
      total_sessions := (study.total_sessions + 1) % 4294967296,
      last_updated := now }
    (.ok (), db.put addr study')
  | none => (.ok (), db)

/-- `BatteryStudy::get_or_create_study`: return the existing record, or
insert and return an empty one (`total_sessions: 0, total_samples: 0`,
empty drain-rate table). -/
def get_or_create_study (db : StudyDb) (addr : Address) (device_name : String)
    (now : Nat) : Except Unit DeviceStudy × StudyDb :=
  match db.lookup addr with
  | some study => (.ok study, db)
  | none =>
    let study : DeviceStudy :=
      { device_name := device_name, last_updated := now,
        total_sessions := 0, total_samples := 0, drain_rates := [] }
    (.ok study, db.put addr study)

/-- `BatteryTracker::init_session`: increment the session counter, then
get-or-create the study record (errors of both steps are logged and
ignored). -/
def init_session (db : StudyDb) (addr : Address) (device_name : String)
    (now : Nat) : StudyDb :=
  let db1 := (increment_session_count db addr now).2
  (get_or_create_study db1 addr device_name now).2

/-! ## Concrete packets and auxiliary predicates used by the theorems -/

instance : DecidableEq (Except ProtoError BatteryInfo) := fun a b =>
  match a, b with
  | .ok x, .ok y => decidable_of_iff (x = y) (by simp)
  | .error x, .error y => decidable_of_iff (x = y) (by simp)
  | .ok _, .error _ => isFalse (by simp)
  | .error _, .ok _ => isFalse (by simp)

/-- The battery packet of the handshake-path scenario:
`04 00 04 00 04 00 03 02 01 50 00 01 04 01 40 01 01 08 01 60 00 01`. -/
def handshakeScenarioBatteryPacket : List Byte :=
  [0x04, 0x00, 0x04, 0x00, 0x04, 0x00, 0x03,
   0x02, 0x01, 0x50, 0x00, 0x01,
   0x04, 0x01, 0x40, 0x01, 0x01,
   0x08, 0x01, 0x60, 0x00, 0x01]

/-- A battery packet whose single record reports the left bud with level
`0x32` and status `0x04` (Disconnected). -/
def disconnectedLeftPacket : List Byte :=
  [0x04, 0x00, 0x04, 0x00, 0x04, 0x00, 0x01, 0x04, 0x01, 0x32, 0x04, 0x01]

/-- A previously stored battery state with a known left level of 80. -/
def prevBatteryInfo : BatteryInfo :=
  { left := { level := 80, status := .Normal },
    right := { level := 70, status := .Normal },
    case_ := { level := 60, status := .Normal } }

/-- Structural invariant of `BatteryHistory` maintained by `push` from the
default state: `count` never exceeds the capacity, the write index stays
below the capacity, and until the ring wraps the write index equals the
number of stored samples. -/
def BatteryHistory.WF (h : BatteryHistory) : Prop :=
  h.count ≤ 32 ∧ h.head < 32 ∧ (h.count < 32 → h.head = h.count)

/-- Each component of a parsed `BatteryInfo` is either the untouched
default (`level 0, Disconnected`) or carries a status other than
`Disconnected`: the record loop never stores a `Disconnected` record. -/
def BatteryInfo.NoStoredDisconnected (info : BatteryInfo) : Prop :=
  (info.left = BatteryState.new ∨ info.left.status ≠ .Disconnected)
  ∧ (info.right = BatteryState.new ∨ info.right.status ≠ .Disconnected)
  ∧ (info.case_ = BatteryState.new ∨ info.case_.status ≠ .Disconnected)

/-- A managed device whose transport link is down (`bluetooth_state =
Disconnected`) on an otherwise healthy adapter. -/
def c8Device : ManagedDevice :=
  { bluetooth_state := .Disconnected, aap_state := .Failed "x",
    adapter_name := "hci0", aap_retry_count := 2,
    last_aap_error := some "x", aap_handle := false }

/-- A manager inventory holding `c8Device` at address 7 on an `Active`
adapter, with nothing in flight. -/
def c8State : ManagerState :=
  { adapters := [("hci0", .Active)], devices := [(7, c8Device)], aap_connecting := [] }

/-! ## Helper lemmas -/

lemma parse_battery_record_preserves (data : List Byte) (info : BatteryInfo) (i : Nat)
    (h : info.NoStoredDisconnected) :
    (parse_battery_record data info i).NoStoredDisconnected := by
  unfold BatteryInfo.NoStoredDisconnected at h ⊢
  unfold parse_battery_record
  split
  · exact h
  split
  · exact h
  rename_i component heq
  split
  · rename_i hstat
    cases component
    · exact ⟨h.1, Or.inr hstat, h.2.2⟩
    · exact ⟨Or.inr hstat, h.2.1, h.2.2⟩
    · exact ⟨h.1, h.2.1, Or.inr hstat⟩
  · exact h

lemma foldl_records_preserves (data : List Byte) :
    ∀ (l : List Nat) (info : BatteryInfo), info.NoStoredDisconnected →
      (l.foldl (parse_battery_record data) info).NoStoredDisconnected
  | [], _, h => h
  | i :: l, info, h =>
    foldl_records_preserves data l _ (parse_battery_record_preserves data info i h)

lemma BatteryHistory.wf_init : BatteryHistory.init.WF := by
  refine ⟨by norm_num [BatteryHistory.init], by norm_num [BatteryHistory.init], ?_⟩
  intro _
  simp [BatteryHistory.init]

lemma BatteryHistory.WF.push {h : BatteryHistory} (hwf : h.WF) (ts : Nat) (lv : Byte) :
    (h.push ts lv).WF := by
  obtain ⟨hc, hb, hh⟩ := hwf
  refine ⟨by simp [BatteryHistory.push], by simp [BatteryHistory.push]; omega, ?_⟩
  intro hlt
  simp only [BatteryHistory.push] at hlt ⊢
  have := hh (by omega)
  omega

lemma BatteryHistory.wf_reachable {h : BatteryHistory} (hr : h.Reachable) : h.WF := by
  induction hr with
  | init => exact wf_init
  | record lv ts hr ih =>
    unfold BatteryHistory.record_battery_drop
    split
    · split
      · exact ih.push _ _
      · exact ih
    · exact ih.push _ _
  | clearStep hr ih => exact wf_init

lemma BatteryHistory.levelsList_count_zero {h : BatteryHistory} (hc : h.count = 0) :
    h.levelsList = [] := by
  simp [BatteryHistory.levelsList, BatteryHistory.iterList, hc]

lemma BatteryHistory.last_level_none {h : BatteryHistory} (hll : h.last_level = none) :
    h.count = 0 := by
  by_contra hne
  simp [BatteryHistory.last_level, hne] at hll

lemma BatteryHistory.push_levelsList (h : BatteryHistory) (hwf : h.WF) (ts : Nat) (lv : Byte) :
    (h.push ts lv).levelsList =
      (if h.count < 32 then h.levelsList else h.levelsList.tail) ++ [lv] := by
  obtain ⟨hc32, hhead, hh⟩ := hwf
  unfold BatteryHistory.levelsList BatteryHistory.iterList BatteryHistory.start
  simp only [BatteryHistory.push, List.map_map]
  by_cases hlt : h.count < 32
  · have he : h.head = h.count := hh hlt
    rw [if_pos hlt, if_pos hlt]
    rw [show min (h.count + 1) 32 = h.count + 1 by omega]
    rw [show (if h.count + 1 < 32 then (0:Nat) else (h.head + 1) % 32) = 0 by
      split <;> omega]
    rw [List.range_succ, List.map_append]
    congr 1
    · apply List.map_congr_left
      intro a ha
      have halt : a < h.count := List.mem_range.mp ha
      simp only [Function.comp_apply]
      rw [Function.update_noteq (by omega)]
    · simp only [List.map_cons, List.map_nil, Function.comp_apply]
      rw [show ((0 + h.count) % 32 : Nat) = h.head by omega]
      rw [Function.update_same]
  · have h32 : h.count = 32 := by omega
    rw [if_neg hlt, if_neg hlt]
    rw [show min (h.count + 1) 32 = 32 by omega]
    rw [show (if (32:Nat) < 32 then (0:Nat) else (h.head + 1) % 32)
        = (h.head + 1) % 32 from if_neg (by omega)]
    rw [h32]
    have hr1 : List.range 32 = List.range 31 ++ [31] := by decide
    have hr2 : List.range 32 = 0 :: (List.range 31).map Nat.succ := by decide
    nth_rewrite 1 [hr1]
    rw [hr2]
    simp only [List.map_append, List.map_cons, List.map_nil, List.tail_cons, List.map_map]
    congr 1
    · apply List.map_congr_left
      intro a ha
      have halt : a < 31 := List.mem_range.mp ha
      simp only [Function.comp_apply]
      rw [Function.update_noteq (by omega)]
      congr 1
      omega
    · simp only [List.map_cons, List.map_nil, Function.comp_apply]
      rw [show (((h.head + 1) % 32 + 31) % 32 : Nat) = h.head by omega]
      rw [Function.update_same]

lemma BatteryHistory.last_level_eq (h : BatteryHistory) (hwf : h.WF) :
    h.last_level = h.levelsList.getLast? := by
  obtain ⟨hc32, hhead, hh⟩ := hwf
  rcases hn : h.count with _ | k
  · simp [BatteryHistory.last_level, BatteryHistory.levelsList, BatteryHistory.iterList, hn]
  · have hlst : h.levelsList =
        ((List.range k).map fun i => h.levels ((h.start + i) % 32))
          ++ [h.levels ((h.start + k) % 32)] := by
      simp only [BatteryHistory.levelsList, BatteryHistory.iterList, hn, List.range_succ,
        List.map_append, List.map_map, List.map_cons, List.map_nil, Function.comp_apply]
      rfl
    rw [hlst, List.getLast?_concat]
    unfold BatteryHistory.last_level
    rw [if_neg (by omega)]
    have hidx : (if h.head = 0 then (31:Nat) else h.head - 1) = (h.start + k) % 32 := by
      unfold BatteryHistory.start
      by_cases hlt : h.count < 32
      · have he := hh hlt
        rw [if_pos hlt, if_neg (by omega)]
        omega
      · rw [if_neg hlt]
        by_cases hz : h.head = 0
        · rw [if_pos hz]
          omega
        · rw [if_neg hz]
          omega
    rw [hidx]

lemma getLast?_of_tail {α : Type} {l : List α} {x : α}
    (hx : l.tail.getLast? = some x) : l.getLast? = some x := by
  cases l with
  | nil => simp at hx
  | cons a t =>
    cases t with
    | nil => simp at hx
    | cons b t' =>
      rw [List.getLast?_cons_cons]
      simpa using hx

lemma BatteryHistory.chain_levelsList {h : BatteryHistory} (hr : h.Reachable) :
    List.Chain' (fun a b : Byte => b < a) h.levelsList := by
  induction hr with
  | init => simp [BatteryHistory.levelsList, BatteryHistory.iterList, BatteryHistory.init]
  | clearStep hr ih =>
    simp [BatteryHistory.clear, BatteryHistory.levelsList, BatteryHistory.iterList,
      BatteryHistory.init]
  | record lv ts hr ih =>
    have hwf := BatteryHistory.wf_reachable hr
    rename_i h'
    unfold BatteryHistory.record_battery_drop
    rcases hll : h'.last_level with _ | last
    · have hc0 : h'.count = 0 := BatteryHistory.last_level_none hll
      simp only [hll]
      rw [BatteryHistory.push_levelsList h' hwf, if_pos (by omega),
        BatteryHistory.levelsList_count_zero hc0]
      simp
    · simp only [hll]
      by_cases hdrop : lv < last
      · rw [if_pos hdrop, BatteryHistory.push_levelsList h' hwf]
        rw [List.chain'_append]
        have hgl : h'.levelsList.getLast? = some last := by
          rw [← BatteryHistory.last_level_eq h' hwf]
          exact hll
        refine ⟨?_, by simp, ?_⟩
        · split
          · exact ih
          · exact ih.tail
        · intro x hx y hy
          simp only [List.head?_cons, Option.mem_def, Option.some.injEq] at hy
          subst hy
          split at hx
          · rw [Option.mem_def, hgl] at hx
            cases hx
            exact hdrop
          · have := getLast?_of_tail (Option.mem_def.mp hx)
            rw [hgl] at this
            cases this
            exact hdrop
      · rw [if_neg hdrop]
        exact ih

lemma passthrough_invoked (hooks : List Hook) (bytes : List Byte) :
    (Hooks.passthrough hooks bytes).1.1 =
      (hooks.filter fun h => h.pfx.isPrefixOf bytes).map Hook.hid := by
  induction hooks with
  | nil => rfl
  | cons h hs ih =>
    unfold Hooks.passthrough Hook.passthroughStep
    by_cases hp : h.pfx.isPrefixOf bytes
    · simp [hp, ih]
    · simp [hp, ih]

lemma passthrough_hooks (hooks : List Hook) (bytes : List Byte) :
    (Hooks.passthrough hooks bytes).2 =
      hooks.filterMap (fun h =>
        if h.pfx.isPrefixOf bytes then
          match h.disposition with
          | .Retain => some { h with cb := (h.cb.invoke).2 }
          | .Discard => none
        else some h) := by
  induction hooks with
  | nil => rfl
  | cons h hs ih =>
    unfold Hooks.passthrough Hook.passthroughStep
    by_cases hp : h.pfx.isPrefixOf bytes
    · have hp' : h.pfx <+: bytes := List.isPrefixOf_iff_prefix.mp hp
      cases hd : h.disposition
      · simp [hp, hp', hd, ih, List.filterMap_cons]
      · simp [hp, hp', hd, ih, List.filterMap_cons]
    · have hp' : ¬ h.pfx <+: bytes := by
        intro c
        exact hp (List.isPrefixOf_iff_prefix.mpr c)
      simp [hp, hp', ih, List.filterMap_cons]

lemma hooksCapacity_cons (h : Hook) (hs : List Hook) (i : Nat) :
    hooksCapacity (h :: hs) i = h.cb.capacityFor i + hooksCapacity hs i := by
  simp [hooksCapacity]

lemma passthrough_capacity (hooks : List Hook) (bytes : List Byte) (i : Nat) :
    (Hooks.passthrough hooks bytes).1.2.count i
      + hooksCapacity (Hooks.passthrough hooks bytes).2 i ≤ hooksCapacity hooks i := by
  induction hooks with
  | nil => simp [Hooks.passthrough, hooksCapacity]
  | cons h hs ih =>
    unfold Hooks.passthrough Hook.passthroughStep
    by_cases hp : h.pfx.isPrefixOf bytes
    · cases hd : h.disposition
      · rcases hcb : h.cb with j | oc
        · simp only [hp, if_true, hcb, Cb.invoke, hd, Option.toList, List.nil_append]
          rw [hooksCapacity_cons, hcb]
          simp only [Cb.capacityFor]
          omega
        · rcases oc with _ | j
          · simp only [hp, if_true, hcb, Cb.invoke, hd, Option.toList, List.nil_append]
            rw [hooksCapacity_cons, hcb]
            simp only [Cb.capacityFor]
            omega
          · simp only [hp, if_true, hcb, Cb.invoke, hd, Option.toList,
              List.singleton_append, List.count_cons]
            rw [hooksCapacity_cons, hcb]
            simp only [Cb.capacityFor]
            by_cases hj : j = i
            · simp only [hj, beq_self_eq_true, if_true]
              omega
            · have hne : (j == i) = false := beq_eq_false_iff_ne.mpr hj
              simp only [hne, if_neg hj, Bool.false_eq_true, if_false]
              omega
      · rcases hcb : h.cb with j | oc
        · simp only [hp, if_true, hcb, Cb.invoke, hd, Option.toList, List.nil_append]
          rw [hooksCapacity_cons, hooksCapacity_cons, hcb]
          simp only [Cb.capacityFor]
          omega
        · rcases oc with _ | j
          · simp only [hp, if_true, hcb, Cb.invoke, hd, Option.toList, List.nil_append]
            rw [hooksCapacity_cons, hooksCapacity_cons, hcb]
            simp only [Cb.capacityFor]
            omega
          · simp only [hp, if_true, hcb, Cb.invoke, hd, Option.toList,
              List.singleton_append, List.count_cons]
            rw [hooksCapacity_cons, hooksCapacity_cons, hcb]
            simp only [Cb.capacityFor]
            by_cases hj : j = i
            · simp only [hj, beq_self_eq_true, if_true]
              omega
            · have hne : (j == i) = false := beq_eq_false_iff_ne.mpr hj
              simp only [hne, if_neg hj, Bool.false_eq_true, if_false]
              omega
    · simp only [hp, if_false, Option.toList, List.nil_append, Bool.false_eq_true]
      rw [hooksCapacity_cons, hooksCapacity_cons]
      omega

lemma runPackets_capacity (packets : List (List Byte)) (hooks : List Hook) (i : Nat) :
    (Hooks.runPackets hooks packets).1.count i
      + hooksCapacity (Hooks.runPackets hooks packets).2 i ≤ hooksCapacity hooks i := by
  induction packets generalizing hooks with
  | nil => simp [Hooks.runPackets]
  | cons p ps ih =>
    unfold Hooks.runPackets
    have h1 := passthrough_capacity hooks p i
    have h2 := ih (Hooks.passthrough hooks p).2
    simp only [List.count_append]
    omega

/-! ## Claim theorems -/

/-- Claim C1: for every byte slice starting with the 6-byte battery header,
`parse_battery_status` returns `PacketTooShort` when the slice is shorter
than 7 bytes, `InvalidBatteryCount` when the count byte at index 6 exceeds
3, `PacketSizeMismatch` when the length is not exactly `7 + 5·count`, and
`Ok` otherwise; a slice not starting with the header yields
`WrongPacketType`. -/
theorem parse_battery_status_validation (data : List Byte) :
    (HDR_BATTERY_STATE.isPrefixOf data = false →
      parse_battery_status data = .error (.WrongPacketType "battery status"))
  ∧ (HDR_BATTERY_STATE.isPrefixOf data = true → data.length < 7 →
      parse_battery_status data = .error (.PacketTooShort 7 data.length))
  ∧ (HDR_BATTERY_STATE.isPrefixOf data = true → 7 ≤ data.length →
      3 < (data.getD 6 0).val →
      parse_battery_status data = .error (.InvalidBatteryCount (data.getD 6 0)))
  ∧ (HDR_BATTERY_STATE.isPrefixOf data = true → 7 ≤ data.length →
      (data.getD 6 0).val ≤ 3 → data.length ≠ 7 + 5 * (data.getD 6 0).val →
      parse_battery_status data =
        .error (.PacketSizeMismatch (7 + 5 * (data.getD 6 0).val) data.length))
  ∧ (HDR_BATTERY_STATE.isPrefixOf data = true → 7 ≤ data.length →
      (data.getD 6 0).val ≤ 3 → data.length = 7 + 5 * (data.getD 6 0).val →
      (parse_battery_status data).isOk = true) := by
  refine ⟨?_, ?_, ?_, ?_, ?_⟩
  · intro h1
    simp only [parse_battery_status, h1]
    simp
  · intro h1 h2
    simp only [parse_battery_status, h1]
    rw [if_neg (by simp), if_pos h2]
  · intro h1 h2 h3
    simp only [parse_battery_status, h1]
    rw [if_neg (by simp), if_neg (by omega), if_pos h3]
  · intro h1 h2 h3 h4
    simp only [parse_battery_status, h1]
    rw [if_neg (by simp), if_neg (by omega), if_neg (by omega), if_pos h4]
  · intro h1 h2 h3 h4
    simp only [parse_battery_status, h1]
    rw [if_neg (by simp), if_neg (by omega), if_neg (by omega), if_neg (by omega)]
    rfl

/-- Witness for claim C1: each validation branch evaluated at a concrete
packet. -/
theorem parse_battery_status_validation_witness :
    parse_battery_status [0x01, 0x00] = .error (.WrongPacketType "battery status")
  ∧ parse_battery_status [0x04, 0x00, 0x04, 0x00, 0x04, 0x00] = .error (.PacketTooShort 7 6)
  ∧ parse_battery_status [0x04, 0x00, 0x04, 0x00, 0x04, 0x00, 0x05] =
      .error (.InvalidBatteryCount 5)
  ∧ parse_battery_status [0x04, 0x00, 0x04, 0x00, 0x04, 0x00, 0x01, 0x02] =
      .error (.PacketSizeMismatch 12 8)
  ∧ (parse_battery_status [0x04, 0x00, 0x04, 0x00, 0x04, 0x00, 0x00]).isOk = true :=
  ⟨(parse_battery_status_validation _).1 (by decide),
   (parse_battery_status_validation _).2.1 (by decide) (by norm_num),
   (parse_battery_status_validation _).2.2.1 (by decide) (by norm_num) (by decide),
   (parse_battery_status_validation _).2.2.2.1 (by decide) (by norm_num) (by decide) (by decide),
   (parse_battery_status_validation _).2.2.2.2 (by decide) (by norm_num) (by decide) (by decide)⟩

/-- Counterexample for claim C2: the handshake-scenario battery packet does
not parse with all three components `Normal` — its left record carries
status byte `0x01`, which is `Charging`. -/
theorem handshake_battery_not_all_normal :
    parse_battery_status handshakeScenarioBatteryPacket ≠
      .ok { left := { level := 64, status := .Normal },
            right := { level := 80, status := .Normal },
            case_ := { level := 96, status := .Normal } } := by decide

/-- Claim C2 (amended): the handshake-scenario battery packet parses
successfully with left level 64 and status `Charging`, right level 80 and
status `Normal`, case level 96 and status `Normal`. -/
theorem handshake_battery_parse_result :
    parse_battery_status handshakeScenarioBatteryPacket =
      .ok { left := { level := 64, status := .Charging },
            right := { level := 80, status := .Normal },
            case_ := { level := 96, status := .Normal } } := by rfl

/-- Counterexample for claim C3: processing a battery packet whose single
record reports the left bud `Disconnected` does not leave the previously
known left level (80) in place — the stored left level becomes the default
0, because `process_packet` swaps in the whole parsed `BatteryInfo`. -/
theorem disconnected_overwrites_known_level :
    ((process_battery_packet (some prevBatteryInfo) disconnectedLeftPacket).1.map
        fun i => i.left.level) ≠ some prevBatteryInfo.left.level := by decide

/-- Claim C3 (amended): a `Disconnected` record's level is never written
into the parsed `BatteryInfo` — each component of the parse result is the
untouched default or carries a non-`Disconnected` status — but
`process_packet` replaces the device's entire stored battery info with the
parse result, so a previously-known level for a component reported
`Disconnected` is reset to the default rather than preserved. -/
theorem battery_disconnected_never_stored (data : List Byte) (info : BatteryInfo)
    (hp : parse_battery_status data = .ok info) :
    info.NoStoredDisconnected
  ∧ ∀ stored, (process_battery_packet stored data).1 = some info := by
  constructor
  · unfold parse_battery_status at hp
    split at hp
    · simp at hp
    split at hp
    · simp at hp
    split at hp
    · simp at hp
    split at hp
    · simp at hp
    simp only [Except.ok.injEq] at hp
    subst hp
    exact foldl_records_preserves data _ BatteryInfo.new ⟨Or.inl rfl, Or.inl rfl, Or.inl rfl⟩
  · intro stored
    simp [process_battery_packet, hp, update_battery_info, UpdateOp.apply_atomic]

/-- Witness for claim C3 (amended): evaluated on the disconnected-left
packet against a previously stored battery info. -/
theorem battery_disconnected_never_stored_witness :
    BatteryInfo.new.NoStoredDisconnected
  ∧ (process_battery_packet (some prevBatteryInfo) disconnectedLeftPacket).1 =
      some BatteryInfo.new :=
  ⟨(battery_disconnected_never_stored disconnectedLeftPacket BatteryInfo.new (by rfl)).1,
   (battery_disconnected_never_stored disconnectedLeftPacket BatteryInfo.new (by rfl)).2
     (some prevBatteryInfo)⟩

/-- Claim C4: for every battery state and noise mode (and every abstracted
arithmetic tail), when either bud is `Charging` or either bud is
`Disconnected`, both `BatteryTracker::estimate_ttl` and
`AirPods::estimate_battery_ttl` return `None` and leave the cached last TTL
estimate cleared to `None`. -/
theorem estimate_ttl_charging_or_disconnected_clears
    (rest rest' : Option Nat → Option Nat × Option Nat)
    (b : BatteryInfo) (nm : Option Nat) (prev prev' : Option Nat)
    (h : (b.left.is_charging || b.right.is_charging
          || !b.left.is_available || !b.right.is_available) = true) :
    estimate_ttl_guarded rest b nm prev = (none, none)
  ∧ estimate_battery_ttl_guarded rest' (some b) prev' = (none, none) := by
  have hcases : (b.left.is_charging || b.right.is_charging) = true
      ∨ ((b.left.is_charging || b.right.is_charging) = false
         ∧ (!b.left.is_available || !b.right.is_available) = true) := by
    cases hc : (b.left.is_charging || b.right.is_charging) with
    | true => exact Or.inl rfl
    | false =>
      refine Or.inr ⟨rfl, ?_⟩
      simp only [hc] at h
      simpa using h
  constructor
  · rcases hcases with hc | ⟨hc, hd⟩
    · simp only [estimate_ttl_guarded, hc]
      cases prev <;> simp
    · simp only [estimate_ttl_guarded, hc, hd]
      cases prev <;> simp
  · rcases hcases with hc | ⟨hc, hd⟩
    · simp only [estimate_battery_ttl_guarded, hc]
      cases prev' <;> simp
    · simp only [estimate_battery_ttl_guarded, hc, hd]
      cases prev' <;> simp

/-- Witness for claim C4: a battery info with the left bud charging,
evaluated with concrete continuations and cached estimates. -/
theorem estimate_ttl_charging_witness :
    estimate_ttl_guarded (fun p => (some 5, p))
      { left := { level := 50, status := .Charging },
        right := { level := 60, status := .Normal },
        case_ := { level := 80, status := .Normal } } (some 1) (some 42) = (none, none)
  ∧ estimate_battery_ttl_guarded (fun p => (some 5, p))
      (some { left := { level := 50, status := .Charging },
              right := { level := 60, status := .Normal },
              case_ := { level := 80, status := .Normal } }) (some 99) = (none, none) :=
  estimate_ttl_charging_or_disconnected_clears _ _ _ _ _ _ (by decide)

/-- Claim C5: `BatteryHistory::record_battery_drop` is a no-op when the
level is greater than or equal to the last stored level, and consequently
every history reachable through `record_battery_drop` and `clear` has its
stored levels strictly decreasing from oldest to newest. -/
theorem battery_history_monotone :
    (∀ (h : BatteryHistory) (level last : Byte) (ts : Nat),
        h.last_level = some last → last ≤ level →
        h.record_battery_drop level ts = h)
  ∧ (∀ h : BatteryHistory, h.Reachable →
        List.Chain' (fun a b : Byte => b < a) h.levelsList) := by
  constructor
  · intro h level last ts hll hle
    unfold BatteryHistory.record_battery_drop
    simp only [hll]
    rw [if_neg]
    intro hlt
    exact absurd hle (not_le.mpr hlt)
  · intro h hr
    exact BatteryHistory.chain_levelsList hr

/-- Witness for claim C5: recording 7 over a last level of 5 is a no-op,
and a freshly recorded history has strictly decreasing levels. -/
theorem battery_history_monotone_witness :
    (BatteryHistory.init.push 0 5).record_battery_drop 7 1 = BatteryHistory.init.push 0 5
  ∧ List.Chain' (fun a b : Byte => b < a)
      ((BatteryHistory.init.record_battery_drop 5 0).levelsList) :=
  ⟨battery_history_monotone.1 _ 7 5 1 (by decide) (by decide),
   battery_history_monotone.2 _ (.record 5 0 .init)⟩

/-- Claim C6: for every opcode byte and 4-byte payload,
`FeatureCmd::parse (build_control_packet opcode payload)` yields
`(opcode, Query)` when the little-endian payload value is 0,
`(opcode, Enable)` for 1, `(opcode, Disable)` for 2, and `none` otherwise. -/
theorem feature_cmd_roundtrip (cmd b0 b1 b2 b3 : Byte) :
    FeatureCmd.parse (build_control_packet cmd [b0, b1, b2, b3]) =
      (if u32_from_le_bytes b0 b1 b2 b3 = 0 then some (cmd, .Query)
       else if u32_from_le_bytes b0 b1 b2 b3 = 1 then some (cmd, .Enable)
       else if u32_from_le_bytes b0 b1 b2 b3 = 2 then some (cmd, .Disable)
       else none) := by
  have hpfx : HDR_CMD_CTL.isPrefixOf (build_control_packet cmd [b0, b1, b2, b3]) = true := by
    simp [build_control_packet, List.isPrefixOf_iff_prefix, HDR_CMD_CTL]
  have hdrop : (build_control_packet cmd [b0, b1, b2, b3]).drop HDR_CMD_CTL.length =
      cmd :: [b0, b1, b2, b3] := by
    simp [build_control_packet, HDR_CMD_CTL]
  simp only [FeatureCmd.parse, hpfx, if_true, hdrop]
  rcases hu : u32_from_le_bytes b0 b1 b2 b3 with _ | _ | _ | n <;> simp

/-- Claim C7: `Hooks::passthrough` invokes exactly the callbacks of hooks
whose stored prefix is a prefix of the packet, in insertion order; matching
`Discard` hooks are removed after firing while non-matching hooks and
matching `Retain` hooks are kept (the latter with their callback state
advanced); and a hook built with `once` fires its captured callback at most
once over any packet sequence. -/
theorem hooks_passthrough_behaviour :
    (∀ (hooks : List Hook) (bytes : List Byte),
        (Hooks.passthrough hooks bytes).1.1 =
          (hooks.filter fun h => h.pfx.isPrefixOf bytes).map Hook.hid)
  ∧ (∀ (hooks : List Hook) (bytes : List Byte),
        (Hooks.passthrough hooks bytes).2 =
          hooks.filterMap (fun h =>
            if h.pfx.isPrefixOf bytes then
              match h.disposition with
              | .Retain => some { h with cb := (h.cb.invoke).2 }
              | .Discard => none
            else some h))
  ∧ (∀ (hooks : List Hook) (packets : List (List Byte)) (i : Nat),
        hooksCapacity hooks i ≤ 1 →
        (Hooks.runPackets hooks packets).1.count i ≤ 1) := by
  refine ⟨passthrough_invoked, passthrough_hooks, ?_⟩
  intro hooks packets i hcap
  have := runPackets_capacity packets hooks i
  omega

/-- Witness for claim C7: a single `once` hook with prefix `[1]` fires its
captured callback exactly once across two matching packets. -/
theorem hooks_passthrough_behaviour_witness :
    (Hooks.passthrough [(Hook.once 7).with_pfx [1]] [1, 2]).1.1 =
      (([(Hook.once 7).with_pfx [1]].filter
        fun h => h.pfx.isPrefixOf [1, 2]).map Hook.hid)
  ∧ (Hooks.runPackets [(Hook.once 7).with_pfx [1]] [[1, 2], [1, 3]]).1.count 7 ≤ 1 :=
  ⟨hooks_passthrough_behaviour.1 _ _,
   hooks_passthrough_behaviour.2.2 [(Hook.once 7).with_pfx [1]] [[1, 2], [1, 3]] 7 (by decide)⟩

/-- Claim C8: `establish_aap_connection` on a known device with
`bluetooth_state = Disconnected` (not in `aap_connecting`, on an `Active`
adapter) returns `DeviceNotConnected`, spawns no connection task, and
leaves the whole manager state — in particular the device's `aap_state`
and retry count — unchanged. -/
theorem establish_aap_disconnected_no_work
    (paired : Address → Bool) (st : ManagerState) (addr : Address) (d : ManagedDevice)
    (hmem : addr ∉ st.aap_connecting)
    (hdev : st.devices.lookup addr = some d)
    (hadp : st.adapters.lookup d.adapter_name = some .Active)
    (hbt : d.bluetooth_state = .Disconnected) :
    establish_aap_connection paired st addr = (.error .DeviceNotConnected, st, false) := by
  simp only [establish_aap_connection, hdev, hadp, hbt]
  rw [if_neg hmem]
  simp

/-- Witness for claim C8: evaluated on a concrete one-device inventory. -/
theorem establish_aap_disconnected_no_work_witness :
    establish_aap_connection (fun _ => true) c8State 7 =
      (.error .DeviceNotConnected, c8State, false) :=
  establish_aap_disconnected_no_work _ _ _ c8Device (by decide) (by decide) (by decide) rfl

/-- Claim C9: for every retry count `k` and drawn jitter, the retry delay
equals `min(2·2^min(k,4), 120)` seconds plus a jitter strictly below one
second; for `k ≤ 5` it lies in `[2·2^min(k,4), 2·2^min(k,4)+1)` seconds and
it never reaches 121 seconds. All quantities in milliseconds. -/
theorem calc_retry_delay_bounds (k jitter : Nat) (hj : jitter < 1000) :
    calc_retry_delay k jitter = min (2000 * 2 ^ min k 4) 120000 + jitter
  ∧ (k ≤ 5 → 2000 * 2 ^ min k 4 ≤ calc_retry_delay k jitter
        ∧ calc_retry_delay k jitter < 2000 * 2 ^ min k 4 + 1000)
  ∧ calc_retry_delay k jitter < 121000 := by
  have h1 : (1:Nat) ≤ 2 ^ min k 4 := Nat.one_le_two_pow
  have h16 : 2 ^ min k 4 ≤ 16 := by
    calc 2 ^ min k 4 ≤ 2 ^ 4 := Nat.pow_le_pow_right (by norm_num) (min_le_right _ _)
    _ = 16 := by norm_num
  simp only [calc_retry_delay, MAX_AAP_RETRY_DELAY_MS]
  refine ⟨by trivial, fun hk => ⟨?_, ?_⟩, ?_⟩ <;> omega

/-- Witness for claim C9: retry count 3 with a 500 ms jitter. -/
theorem calc_retry_delay_bounds_witness :
    calc_retry_delay 3 500 = min (2000 * 2 ^ min 3 4) 120000 + 500
  ∧ (3 ≤ 5 → 2000 * 2 ^ min 3 4 ≤ calc_retry_delay 3 500
        ∧ calc_retry_delay 3 500 < 2000 * 2 ^ min 3 4 + 1000)
  ∧ calc_retry_delay 3 500 < 121000 :=
  calc_retry_delay_bounds 3 500 (by norm_num)

/-- Claim C10: for an address with no study record,
`increment_session_count` returns `Ok(())` and leaves the database
unchanged; since `init_session` increments before `get_or_create_study`,
the freshly created record shows zero sessions — a device's first session
is never counted. -/
theorem first_session_never_counted (db : StudyDb) (addr : Address)
    (name : String) (now : Nat) (h : db.lookup addr = none) :
    increment_session_count db addr now = (.ok (), db)
  ∧ (init_session db addr name now).lookup addr =
      some { device_name := name, last_updated := now, total_sessions := 0,
             total_samples := 0, drain_rates := [] } := by
  have h1 : increment_session_count db addr now = (.ok (), db) := by
    simp [increment_session_count, h]
  refine ⟨h1, ?_⟩
  simp [init_session, h1, get_or_create_study, h, StudyDb.put, List.lookup]

/-- Witness for claim C10: a first session against an empty database. -/
theorem first_session_never_counted_witness :
    increment_session_count [] 7 1000 = (.ok (), [])
  ∧ (init_session [] 7 "AirPods Pro" 1000).lookup 7 =
      some { device_name := "AirPods Pro", last_updated := 1000, total_sessions := 0,
             total_samples := 0, drain_rates := [] } :=
  first_session_never_counted [] 7 "AirPods Pro" 1000 (by decide)

end KAirPods
